import Mathlib

/- A Lean model of the invitee check-in logic of src/sistema_de_invitados_app.jsx.
   Records and operations follow the localStorage code path; the
   nondeterministic inputs of the JavaScript code (Math.random id suffixes and
   Date toISOString timestamps) are passed in as explicit parameters. -/

namespace Invitados

/-- One invitee record, with the field names of the JavaScript objects. -/
structure Invitado where
  id : String
  nombre_completo : String
  tipo_invitado : String
  qr_code : String
  ingresado : Bool
  fecha_ingreso : Option String
  dni : String
  deriving DecidableEq

/-- The fixed admin username of the source. -/
def ADMIN_USER : String := "jesusandia124"

/-- The fixed admin password of the source. -/
def ADMIN_PASS : String := "andia124"

/-- The session marker stored on a successful login: only the username. -/
structure AdminSession where
  username : String
  deriving DecidableEq

/-- useAuth().login: compares the pair against the fixed credentials; on
    success stores the marker and reports true, otherwise reports false and
    leaves the stored marker alone. -/
def login (u p : String) (store : Option AdminSession) : Bool × Option AdminSession :=
  if u == ADMIN_USER && p == ADMIN_PASS then (true, some { username := u })
  else (false, store)

/-- uid(): the random suffix Math.random().toString(36).slice(2, 9) is passed
    in explicitly; the code prepends the fixed tag and never checks the
    result against existing ids. -/
def uid (rand : String) : String := "id_" ++ rand

/-- The whitespace set of JS String.prototype.trim (WhiteSpace and
    LineTerminator code points). -/
def jsIsWhite (c : Char) : Bool :=
  let n := c.toNat
  (9 <= n && n <= 13) || n == 32 || n == 0xa0 || n == 0x1680 ||
  (0x2000 <= n && n <= 0x200a) || n == 0x2028 || n == 0x2029 || n == 0x202f ||
  n == 0x205f || n == 0x3000 || n == 0xfeff

/-- JS String.prototype.trim. -/
def jsTrim (s : String) : String :=
  String.mk (((s.data.dropWhile jsIsWhite).reverse.dropWhile jsIsWhite).reverse)

/-- JS String.prototype.toLowerCase on one character, covering the Basic
    Latin, Latin-1 Supplement and Latin Extended-A simple mappings — the
    letter repertoire of this Spanish-language application (accented
    capitals such as Ú map to ú exactly as in JS). The remaining Unicode
    mapping is context-sensitive (for example Greek capital sigma) and
    outside the scripts this application stores. -/
def jsToLowerChar (c : Char) : Char :=
  let n := c.toNat
  if 65 ≤ n && n ≤ 90 then Char.ofNat (n + 32)
  else if (0xc0 ≤ n && n ≤ 0xd6) || (0xd8 ≤ n && n ≤ 0xde) then Char.ofNat (n + 32)
  else if 0x100 ≤ n && n ≤ 0x137 && n % 2 == 0 then Char.ofNat (n + 1)
  else if 0x139 ≤ n && n ≤ 0x147 && n % 2 == 1 then Char.ofNat (n + 1)
  else if 0x14a ≤ n && n ≤ 0x176 && n % 2 == 0 then Char.ofNat (n + 1)
  else if n == 0x178 then Char.ofNat 0xff
  else if n == 0x179 || n == 0x17b || n == 0x17d then Char.ofNat (n + 1)
  else c

/-- JS toLowerCase on strings. -/
def jsToLower (s : String) : String := String.mk (s.data.map jsToLowerChar)

/-- One hex digit as emitted by JSON.stringify (lowercase). -/
def hexDigitChar (n : Nat) : Char :=
  if n < 10 then Char.ofNat (48 + n) else Char.ofNat (87 + n)

/-- JSON.stringify escaping of one character of a string value. -/
def jsEscapeChar (c : Char) : List Char :=
  if c = '\"' then ['\\', '\"']
  else if c = '\\' then ['\\', '\\']
  else if c = '\x08' then ['\\', 'b']
  else if c = '\x09' then ['\\', 't']
  else if c = '\x0a' then ['\\', 'n']
  else if c = '\x0c' then ['\\', 'f']
  else if c = '\x0d' then ['\\', 'r']
  else if c.toNat < 32 then
    ['\\', 'u', '0', '0', hexDigitChar (c.toNat / 16), hexDigitChar (c.toNat % 16)]
  else [c]

/-- JSON.stringify escaping of a whole string value. -/
def jsEscapeList : List Char → List Char
  | [] => []
  | c :: rest => jsEscapeChar c ++ jsEscapeList rest

/-- JSON.stringify of the one-field object holding the given id string, as
    built by generarQR of the source. -/
def jsonStringifyIdObj (id : String) : String :=
  String.mk ('\x7b' :: '\"' :: 'i' :: 'd' :: '\"' :: ':' :: '\"' ::
    (jsEscapeList id.data ++ ['\"', '\x7d']))

/-- generarQR (localStorage branch): map-and-replace the record with the
    matching id, writing the stringified id object into qr_code. -/
def generarQR (arr : List Invitado) (inv : Invitado) : List Invitado :=
  arr.map fun item =>
    if item.id == inv.id then { item with qr_code := jsonStringifyIdObj inv.id } else item

/-- marcarIngreso (localStorage branch); now is the new Date().toISOString()
    value taken at call time. -/
def marcarIngreso (arr : List Invitado) (inv : Invitado) (now : String) : List Invitado :=
  arr.map fun item =>
    if item.id == inv.id then { item with ingresado := true, fecha_ingreso := some now }
    else item

/-- The scanner marcar action (localStorage branch): rewrites the list the
    same way and also refreshes the locally held copy of the matched record. -/
def marcar (arr : List Invitado) (invData : Invitado) (now : String) :
    List Invitado × Invitado :=
  (arr.map fun item =>
    if item.id == invData.id then { item with ingresado := true, fecha_ingreso := some now }
    else item,
   { invData with ingresado := true, fecha_ingreso := some now })

/-- addInvitado: a blank (all-whitespace) name is rejected silently, leaving
    the list alone; otherwise a fresh record built from the form fields is
    appended. rand feeds uid. -/
def addInvitado (arr : List Invitado) (rand newNombre newTipo dniQ : String) :
    List Invitado :=
  if jsTrim newNombre == "" then arr
  else arr ++ [{ id := uid rand, nombre_completo := jsTrim newNombre,
                 tipo_invitado := newTipo, qr_code := "", ingresado := false,
                 fecha_ingreso := none, dni := dniQ }]

/-- JS String.prototype.includes as substring occurrence on character lists. -/
def listIncludes : List Char → List Char → Bool
  | [], needle => needle.isEmpty
  | c :: rest, needle => needle.isPrefixOf (c :: rest) || listIncludes rest needle

/-- JS String.prototype.includes on strings. -/
def strIncludes (hay needle : String) : Bool := listIncludes hay.data needle.data

/-- The Dashboard search filter over the loaded list; q is the name-or-dni
    query and dniQ the exact dni filter field. -/
def search (invitados : List Invitado) (q dniQ : String) : List Invitado :=
  invitados.filter fun inv =>
    let term := jsToLower q
    let matchName := inv.nombre_completo != "" && strIncludes (jsToLower inv.nombre_completo) term
    let matchDni := inv.dni != "" && strIncludes inv.dni q
    let byDni := if dniQ != "" then inv.dni == dniQ else true
    (matchName || matchDni) && byDni

/-- The JSON value shape produced by JSON.parse; number values keep their
    source token, since nothing in the application inspects a numeric value
    beyond truthiness. -/
inductive Json where
  | null
  | bool (b : Bool)
  | num (tok : String)
  | str (s : String)
  | arr (elems : List Json)
  | obj (fields : List (String × Json))

/-- Value of one hex digit in a JSON \u escape. -/
def hexVal (c : Char) : Option Nat :=
  if 48 ≤ c.toNat && c.toNat ≤ 57 then some (c.toNat - 48)
  else if 97 ≤ c.toNat && c.toNat ≤ 102 then some (c.toNat - 87)
  else if 65 ≤ c.toNat && c.toNat ≤ 70 then some (c.toNat - 55)
  else none

/-- Body of a JSON string literal, after the opening quote: returns the
    decoded characters and the input following the closing quote. Raw
    control characters are rejected, as JSON.parse does. -/
def parseStringBody : List Char → Option (List Char × List Char)
  | [] => none
  | c :: rest =>
    if c = '\"' then some ([], rest)
    else if c = '\\' then
      match rest with
      | [] => none
      | e :: r =>
        if e = '\"' then (parseStringBody r).map fun p => ('\"' :: p.1, p.2)
        else if e = '\\' then (parseStringBody r).map fun p => ('\\' :: p.1, p.2)
        else if e = '/' then (parseStringBody r).map fun p => ('/' :: p.1, p.2)
        else if e = 'b' then (parseStringBody r).map fun p => ('\x08' :: p.1, p.2)
        else if e = 'f' then (parseStringBody r).map fun p => ('\x0c' :: p.1, p.2)
        else if e = 'n' then (parseStringBody r).map fun p => ('\x0a' :: p.1, p.2)
        else if e = 'r' then (parseStringBody r).map fun p => ('\x0d' :: p.1, p.2)
        else if e = 't' then (parseStringBody r).map fun p => ('\x09' :: p.1, p.2)
        else if e = 'u' then
          match r with
          | a :: b :: c2 :: d :: r2 =>
            match hexVal a, hexVal b, hexVal c2, hexVal d with
            | some va, some vb, some vc, some vd =>
              (parseStringBody r2).map fun p =>
                (Char.ofNat (((va * 16 + vb) * 16 + vc) * 16 + vd) :: p.1, p.2)
            | _, _, _, _ => none
          | _ => none
        else none
    else if c.toNat < 32 then none
    else (parseStringBody rest).map fun p => (c :: p.1, p.2)

/-- The insignificant-whitespace set of JSON. -/
def jsonWs (c : Char) : Bool := c == ' ' || c == '\x09' || c == '\x0a' || c == '\x0d'

/-- Drop leading JSON whitespace. -/
def skipWs : List Char → List Char
  | [] => []
  | c :: rest => if jsonWs c then skipWs rest else c :: rest

/-- Exponent part of a JSON number token (empty when absent). -/
def parseExpPart (tok : List Char) (cs : List Char) : Option (List Char × List Char) :=
  match cs with
  | [] => some (tok, [])
  | c :: r =>
    if c = 'e' || c = 'E' then
      let sr : List Char × List Char :=
        match r with
        | s :: r2 => if s = '+' || s = '-' then ([s], r2) else ([], r)
        | [] => ([], r)
      match sr.2.takeWhile Char.isDigit with
      | [] => none
      | d :: ds => some (tok ++ c :: sr.1 ++ d :: ds, sr.2.dropWhile Char.isDigit)
    else some (tok, cs)

/-- Fraction part of a JSON number token (empty when absent). -/
def parseFracPart (tok : List Char) (cs : List Char) : Option (List Char × List Char) :=
  match cs with
  | '.' :: r =>
    match r.takeWhile Char.isDigit with
    | [] => none
    | d :: ds => parseExpPart (tok ++ '.' :: d :: ds) (r.dropWhile Char.isDigit)
  | _ => parseExpPart tok cs

/-- One JSON number token, with the strict grammar JSON.parse enforces
    (no leading plus, no bare leading zeros). -/
def parseNumberTok (cs : List Char) : Option (List Char × List Char) :=
  let sg : List Char × List Char :=
    match cs with
    | '-' :: r => (['-'], r)
    | _ => ([], cs)
  match sg.2 with
  | [] => none
  | '0' :: r => parseFracPart (sg.1 ++ ['0']) r
  | c :: r =>
    if 49 ≤ c.toNat && c.toNat ≤ 57 then
      parseFracPart (sg.1 ++ c :: r.takeWhile Char.isDigit) (r.dropWhile Char.isDigit)
    else none

mutual

/-- One JSON value; the fuel only bounds nesting-induced recursion and is
    chosen large enough at the top entry point. -/
def parseValue : Nat → List Char → Option (Json × List Char)
  | 0, _ => none
  | fuel + 1, cs =>
    match skipWs cs with
    | [] => none
    | c :: rest =>
      if c = '\"' then (parseStringBody rest).map fun p => (Json.str (String.mk p.1), p.2)
      else if c = '\x7b' then parseObjBody fuel rest
      else if c = '[' then parseArrBody fuel rest
      else if c = 't' then
        match rest with
        | 'r' :: 'u' :: 'e' :: r => some (Json.bool true, r)
        | _ => none
      else if c = 'f' then
        match rest with
        | 'a' :: 'l' :: 's' :: 'e' :: r => some (Json.bool false, r)
        | _ => none
      else if c = 'n' then
        match rest with
        | 'u' :: 'l' :: 'l' :: r => some (Json.null, r)
        | _ => none
      else if c = '-' || c.isDigit then
        (parseNumberTok (c :: rest)).map fun p => (Json.num (String.mk p.1), p.2)
      else none

/-- An object body, after the opening brace. -/
def parseObjBody : Nat → List Char → Option (Json × List Char)
  | 0, _ => none
  | fuel + 1, cs =>
    match skipWs cs with
    | '\x7d' :: rest => some (Json.obj [], rest)
    | cs1 =>
      match parseMembers fuel cs1 with
      | some p => some (Json.obj p.1, p.2)
      | none => none

/-- A nonempty comma-separated member list of an object. -/
def parseMembers : Nat → List Char → Option (List (String × Json) × List Char)
  | 0, _ => none
  | fuel + 1, cs =>
    match skipWs cs with
    | '\"' :: rest =>
      match parseStringBody rest with
      | some kp =>
        match skipWs kp.2 with
        | ':' :: r3 =>
          match parseValue fuel r3 with
          | some vp =>
            match skipWs vp.2 with
            | ',' :: r6 =>
              match parseMembers fuel r6 with
              | some mp => some ((String.mk kp.1, vp.1) :: mp.1, mp.2)
              | none => none
            | '\x7d' :: r6 => some ([(String.mk kp.1, vp.1)], r6)
            | _ => none
          | none => none
        | _ => none
      | none => none
    | _ => none

/-- An array body, after the opening bracket. -/
def parseArrBody : Nat → List Char → Option (Json × List Char)
  | 0, _ => none
  | fuel + 1, cs =>
    match skipWs cs with
    | ']' :: rest => some (Json.arr [], rest)
    | cs1 =>
      match parseElems fuel cs1 with
      | some p => some (Json.arr p.1, p.2)
      | none => none

/-- A nonempty comma-separated element list of an array. -/
def parseElems : Nat → List Char → Option (List Json × List Char)
  | 0, _ => none
  | fuel + 1, cs =>
    match parseValue fuel cs with
    | some vp =>
      match skipWs vp.2 with
      | ',' :: r =>
        match parseElems fuel r with
        | some ep => some (vp.1 :: ep.1, ep.2)
        | none => none
      | ']' :: r => some ([vp.1], r)
      | _ => none
    | none => none

end

/-- JSON.parse: a whole-input parse, with surrounding whitespace allowed.
    The fuel 3 * length + 3 never runs out: each recursive edge of the
    mutual parser costs one unit, and at most two consecutive edges consume
    no input (entering an object or array body and its member or element
    list), so every third edge consumes at least one character. -/
def Json.parse (s : String) : Option Json :=
  match parseValue (3 * s.length + 3) s.data with
  | some p => if (skipWs p.2).isEmpty then some p.1 else none
  | none => none

/-- The digit characters of a number token as a natural number. -/
def digitsToNat (cs : List Char) : Nat :=
  cs.foldl (fun a c => a * 10 + (c.toNat - 48)) 0

/-- Splits a JSON number token into its mantissa digits (integer and
    fraction digits, with the sign dropped) and the base-10 exponent that
    scales the mantissa read as an integer. -/
def numMantissaExp (cs : List Char) : List Char × Int :=
  let cs1 := match cs with
    | '-' :: r => r
    | _ => cs
  let intPart := cs1.takeWhile Char.isDigit
  let rest1 := cs1.dropWhile Char.isDigit
  let fracPart := match rest1 with
    | '.' :: r => r.takeWhile Char.isDigit
    | _ => []
  let rest2 := match rest1 with
    | '.' :: r => r.dropWhile Char.isDigit
    | _ => rest1
  let expVal : Int := match rest2 with
    | _ :: '+' :: d => (digitsToNat (d.takeWhile Char.isDigit) : Int)
    | _ :: '-' :: d => -(digitsToNat (d.takeWhile Char.isDigit) : Int)
    | _ :: d => (digitsToNat (d.takeWhile Char.isDigit) : Int)
    | [] => 0
  (intPart ++ fracPart, expVal - fracPart.length)

/-- Whether a JSON number token denotes binary64 (signed) zero, as JS sees
    it: the encoded magnitude M * 10 ^ e rounds to zero exactly when it is
    at most 2 ^ (-1075), half the least subnormal; underflowing tokens such
    as 1e-400 are therefore zero. When the negated exponent k is at least
    the digit count plus 324 the inequality M * 2 ^ 1075 ≤ 10 ^ k holds
    outright (M < 10 ^ digits and 2 ^ 1075 < 10 ^ 324), which keeps the
    computation linear in the token size. -/
def jsonNumIsZero (cs : List Char) : Bool :=
  let me := numMantissaExp cs
  let M := digitsToNat me.1
  if M == 0 then true
  else if 0 ≤ me.2 then false
  else
    let k := (-me.2).toNat
    if (me.1).length + 324 ≤ k then true
    else decide (M * 2 ^ 1075 ≤ 10 ^ k)

/-- JS truthiness of a parsed JSON value: null, false, numbers whose value
    is (signed) zero and the empty string are falsy; objects and arrays are
    always truthy. -/
def jsTruthy : Json → Bool
  | .null => false
  | .bool b => b
  | .num tok => !(jsonNumIsZero tok.data)
  | .str s => s != ""
  | .arr _ => true
  | .obj _ => true

/-- JS property access parsed.id: only objects carry fields, and JSON.parse
    keeps the last of duplicate keys; none plays the role of undefined. -/
def jsGetProp (j : Json) (key : String) : Option Json :=
  match j with
  | .obj fields =>
    match fields.reverse.find? (fun f => f.1 == key) with
    | some f => some f.2
    | none => none
  | _ => none

/-- The outcome the scanner surfaces for one decoded payload. -/
inductive ScanResult where
  | matched (inv : Invitado)
  | invalid (msg : String)
  deriving DecidableEq

/-- JS strict equality between a record id and a parsed payload value: false
    whenever the payload value is not a string. -/
def jsStrictEqStr (s : String) (v : Json) : Bool :=
  match v with
  | .str t => s == t
  | _ => false

/-- findInvitado: looks the scanned id up in the snapshot list. -/
def findInvitado (invitados : List Invitado) (idv : Json) : ScanResult :=
  match invitados.find? (fun i => jsStrictEqStr i.id idv) with
  | some inv => ScanResult.matched inv
  | none => ScanResult.invalid ("Invitado no registrado")

/-- handleScan on a decoded string payload; none models the early return on a
    falsy (empty) payload, where no message is shown at all. -/
def handleScan (invitados : List Invitado) (raw : String) : Option ScanResult :=
  if raw == "" then none
  else
    match Json.parse raw with
    | none => some (ScanResult.invalid ("QR inválido"))
    | some parsed =>
      if jsTruthy parsed then
        match jsGetProp parsed ("id") with
        | some pid =>
          if jsTruthy pid then some (findInvitado invitados pid)
          else some (ScanResult.invalid ("QR inválido"))
        | none => some (ScanResult.invalid ("QR inválido"))
      else some (ScanResult.invalid ("QR inválido"))

/-- The first record of the localStorage seed data. -/
def sampleA : Invitado :=
  { id := "id_aaaaaaa", nombre_completo := "Jesús Andres Andía Zambrano",
    tipo_invitado := "PROMOCIONADO", qr_code := "", ingresado := false,
    fecha_ingreso := none, dni := "00000001" }

/-- The second record of the localStorage seed data. -/
def sampleB : Invitado :=
  { id := "id_bbbbbbb", nombre_completo := "Andres Sanchez Valentin",
    tipo_invitado := "INVITADO", qr_code := "", ingresado := false,
    fecha_ingreso := none, dni := "00000002" }

/-- A record whose name holds accented capitals, exercising the non-ASCII
    toLowerCase mappings. -/
def sampleU : Invitado :=
  { id := "id_uuuuuuu", nombre_completo := "JESÚS ANDÍA",
    tipo_invitado := "INVITADO", qr_code := "", ingresado := false,
    fecha_ingreso := none, dni := "00000003" }

/-- Helper: a map that fixes every element of a list leaves it unchanged. -/
theorem map_fixes_eq_self (l : List Invitado) (g : Invitado → Invitado)
    (h : ∀ a ∈ l, g a = a) : l.map g = l := by
  induction l with
  | nil => rfl
  | cons x xs ih =>
    simp only [List.map_cons]
    rw [h x (by simp), ih fun a ha => h a (by simp [ha])]

end Invitados

namespace Invitados

/-- C1: marcarIngreso sets ingresado to true and fecha_ingreso to a non-null
    timestamp on every record carrying the target id, and a second call on
    the already-admitted record simply overwrites fecha_ingreso with the
    later timestamp instead of being a no-op. -/
theorem marcarIngreso_sets_and_overwrites
    (arr : List Invitado) (inv : Invitado) (t1 t2 : String) :
    (∀ item ∈ marcarIngreso arr inv t1, item.id = inv.id →
      item.ingresado = true ∧ item.fecha_ingreso = some t1)
    ∧ (∀ item ∈ marcarIngreso (marcarIngreso arr inv t1) inv t2, item.id = inv.id →
      item.ingresado = true ∧ item.fecha_ingreso = some t2) := by
  have key : ∀ (l : List Invitado) (t : String), ∀ item ∈ marcarIngreso l inv t,
      item.id = inv.id → item.ingresado = true ∧ item.fecha_ingreso = some t := by
    intro l t item hmem hid
    simp only [marcarIngreso, List.mem_map] at hmem
    obtain ⟨x, hx, hxe⟩ := hmem
    by_cases hc : x.id = inv.id
    · simp only [hc, beq_self_eq_true, if_true] at hxe
      subst hxe
      exact ⟨rfl, rfl⟩
    · simp only [beq_eq_false_iff_ne.mpr hc, Bool.false_eq_true, if_false] at hxe
      subst hxe
      exact absurd hid hc
  exact ⟨key arr t1, key (marcarIngreso arr inv t1) t2⟩

/-- Witness for C1 at the seed record and two distinct timestamps. -/
theorem marcarIngreso_sets_and_overwrites_witness :
    ({ sampleA with ingresado := true, fecha_ingreso := some ("t2") } : Invitado).ingresado = true ∧
    ({ sampleA with ingresado := true, fecha_ingreso := some ("t2") } : Invitado).fecha_ingreso
      = some ("t2") :=
  (marcarIngreso_sets_and_overwrites [sampleA] sampleA ("t1") ("t2")).2
    ({ sampleA with ingresado := true, fecha_ingreso := some ("t2") }) (by decide) (by decide)

/-- C4: all three repository operations preserve the invariant that
    fecha_ingreso is null exactly when ingresado is false; addInvitado
    creates records with ingresado false and fecha_ingreso null, and
    marcarIngreso sets both fields together. -/
theorem ops_preserve_null_iff_not_admitted
    (arr : List Invitado)
    (h : ∀ item ∈ arr, item.fecha_ingreso = none ↔ item.ingresado = false) :
    (∀ rand n t d, ∀ item ∈ addInvitado arr rand n t d,
      item.fecha_ingreso = none ↔ item.ingresado = false)
    ∧ (∀ inv, ∀ item ∈ generarQR arr inv,
      item.fecha_ingreso = none ↔ item.ingresado = false)
    ∧ (∀ inv now, ∀ item ∈ marcarIngreso arr inv now,
      item.fecha_ingreso = none ↔ item.ingresado = false) := by
  refine ⟨?_, ?_, ?_⟩
  · intro rand n t d item hmem
    unfold addInvitado at hmem
    by_cases hb : jsTrim n = ""
    · simp only [hb, beq_self_eq_true, if_true] at hmem
      exact h item hmem
    · simp only [beq_eq_false_iff_ne.mpr hb, Bool.false_eq_true, if_false,
        List.mem_append, List.mem_singleton] at hmem
      rcases hmem with hmem | rfl
      · exact h item hmem
      · simp
  · intro inv item hmem
    simp only [generarQR, List.mem_map] at hmem
    obtain ⟨x, hx, hxe⟩ := hmem
    by_cases hc : x.id = inv.id
    · simp only [hc, beq_self_eq_true, if_true] at hxe
      subst hxe
      exact h x hx
    · simp only [beq_eq_false_iff_ne.mpr hc, Bool.false_eq_true, if_false] at hxe
      subst hxe
      exact h x hx
  · intro inv now item hmem
    simp only [marcarIngreso, List.mem_map] at hmem
    obtain ⟨x, hx, hxe⟩ := hmem
    by_cases hc : x.id = inv.id
    · simp only [hc, beq_self_eq_true, if_true] at hxe
      subst hxe
      simp
    · simp only [beq_eq_false_iff_ne.mpr hc, Bool.false_eq_true, if_false] at hxe
      subst hxe
      exact h x hx

/-- Witness for C4 on the seed list: the invariant holds after marking the
    first seed record as admitted. -/
theorem ops_preserve_null_iff_not_admitted_witness :
    ({ sampleA with ingresado := true, fecha_ingreso := some ("t1") } : Invitado).fecha_ingreso
      = none ↔
    ({ sampleA with ingresado := true, fecha_ingreso := some ("t1") } : Invitado).ingresado
      = false :=
  (ops_preserve_null_iff_not_admitted [sampleA, sampleB] (by decide)).2.2 sampleA ("t1")
    ({ sampleA with ingresado := true, fecha_ingreso := some ("t1") }) (by decide)

/-- C5: generarQR is idempotent on the stored list, and its effect depends
    only on the id of the invitee it is handed. -/
theorem generarQR_idempotent (arr : List Invitado) (inv inv2 : Invitado)
    (hid : inv2.id = inv.id) :
    generarQR (generarQR arr inv) inv = generarQR arr inv
    ∧ generarQR arr inv2 = generarQR arr inv := by
  constructor
  · unfold generarQR
    rw [List.map_map]
    apply List.map_congr_left
    intro x _
    by_cases hc : x.id = inv.id
    · simp [hc]
    · simp [hc]
  · unfold generarQR
    rw [hid]

/-- Witness for C5: regenerating the QR of the first seed record. -/
theorem generarQR_idempotent_witness :
    generarQR (generarQR [sampleA] sampleA) sampleA = generarQR [sampleA] sampleA
    ∧ generarQR [sampleA] ({ sampleA with nombre_completo := "otro" }) =
        generarQR [sampleA] sampleA :=
  generarQR_idempotent [sampleA] sampleA ({ sampleA with nombre_completo := "otro" }) (by decide)

/-- C8: login succeeds exactly on the fixed credential pair; on success the
    stored marker holds only the username, and on failure the stored marker
    is left untouched. -/
theorem login_exact (u p : String) (store : Option AdminSession) :
    ((login u p store).1 = true ↔ (u = ADMIN_USER ∧ p = ADMIN_PASS))
    ∧ (u = ADMIN_USER → p = ADMIN_PASS →
        (login u p store).2 = some { username := ADMIN_USER })
    ∧ ((login u p store).1 = false → (login u p store).2 = store) := by
  by_cases h1 : u = ADMIN_USER
  · by_cases h2 : p = ADMIN_PASS
    · subst h1; subst h2
      simp [login]
    · simp [login, h1, h2, beq_eq_false_iff_ne.mpr h2]
  · simp [login, h1, beq_eq_false_iff_ne.mpr h1]

/-- Witness for C8: the fixed pair logs in and stores the marker; a wrong
    pair reports failure and leaves an existing marker alone. -/
theorem login_exact_witness :
    (login ("jesusandia124") ("andia124") none).1 = true
    ∧ (login ("jesusandia124") ("andia124") none).2
        = some { username := ("jesusandia124") }
    ∧ (login ("jesusandia124") ("wrong") (some { username := "x" })).2
        = some { username := ("x") } :=
  ⟨(login_exact ("jesusandia124") ("andia124") none).1.mpr ⟨rfl, rfl⟩,
   (login_exact ("jesusandia124") ("andia124") none).2.1 rfl rfl,
   (login_exact ("jesusandia124") ("wrong") (some { username := "x" })).2.2 (by decide)⟩

/-- C9: addInvitado with a name that is empty or whitespace-only leaves the
    stored list unchanged, with no record added and no error surfaced. -/
theorem addInvitado_blank_noop (arr : List Invitado) (rand n t d : String)
    (h : jsTrim n = "") :
    addInvitado arr rand n t d = arr := by
  simp [addInvitado, h]

/-- Witness for C9 at a whitespace-only name. -/
theorem addInvitado_blank_noop_witness :
    addInvitado [sampleA] ("ccccccc") ("  \t ") ("INVITADO") ("") = [sampleA] :=
  addInvitado_blank_noop [sampleA] ("ccccccc") ("  \t ") ("INVITADO") ("") (by decide)

/-- C10: generarQR, marcarIngreso and the scanner marcar touch only the
    record whose id matches their target; every record at a position whose
    id differs is returned unchanged in all fields, and when no stored
    record carries the target id the whole list is unchanged. -/
theorem update_frame (arr : List Invitado) (inv invD : Invitado) (now : String) :
    (∀ (k : Nat) (h : k < arr.length) (h1 : k < (generarQR arr inv).length),
      (arr.get ⟨k, h⟩).id ≠ inv.id →
        (generarQR arr inv).get ⟨k, h1⟩ = arr.get ⟨k, h⟩)
    ∧ (∀ (k : Nat) (h : k < arr.length) (h2 : k < (marcarIngreso arr inv now).length),
      (arr.get ⟨k, h⟩).id ≠ inv.id →
        (marcarIngreso arr inv now).get ⟨k, h2⟩ = arr.get ⟨k, h⟩)
    ∧ (∀ (k : Nat) (h : k < arr.length) (h3 : k < ((marcar arr invD now).1).length),
      (arr.get ⟨k, h⟩).id ≠ invD.id →
        ((marcar arr invD now).1).get ⟨k, h3⟩ = arr.get ⟨k, h⟩)
    ∧ ((∀ item ∈ arr, item.id ≠ inv.id) →
        generarQR arr inv = arr ∧ marcarIngreso arr inv now = arr)
    ∧ ((∀ item ∈ arr, item.id ≠ invD.id) → (marcar arr invD now).1 = arr) := by
  refine ⟨?_, ?_, ?_, ?_, ?_⟩
  · intro k h h1 hne
    simp only [generarQR, List.get_eq_getElem, List.getElem_map] at *
    simp [hne]
  · intro k h h2 hne
    simp only [marcarIngreso, List.get_eq_getElem, List.getElem_map] at *
    simp [hne]
  · intro k h h3 hne
    simp only [marcar, List.get_eq_getElem, List.getElem_map] at *
    simp [hne]
  · intro hno
    constructor
    · exact map_fixes_eq_self arr _ fun a ha => by simp [hno a ha]
    · exact map_fixes_eq_self arr _ fun a ha => by simp [hno a ha]
  · intro hno
    exact map_fixes_eq_self arr _ fun a ha => by simp [hno a ha]

/-- Witness for C10 at the seed list, targeting the second record. -/
theorem update_frame_witness :
    (generarQR [sampleA, sampleB] sampleB).get ⟨0, by decide⟩
      = [sampleA, sampleB].get ⟨0, by decide⟩
    ∧ generarQR [sampleA] sampleB = [sampleA]
    ∧ marcarIngreso [sampleA] sampleB ("t1") = [sampleA]
    ∧ (marcar [sampleA] sampleB ("t1")).1 = [sampleA] :=
  ⟨(update_frame [sampleA, sampleB] sampleB sampleB ("t1")).1 0 (by decide) (by decide)
      (by decide),
   ((update_frame [sampleA] sampleB sampleB ("t1")).2.2.2.1 (by decide)).1,
   ((update_frame [sampleA] sampleB sampleB ("t1")).2.2.2.1 (by decide)).2,
   (update_frame [sampleA] sampleB sampleB ("t1")).2.2.2.2 (by decide)⟩

/-- C2 counterexample: uid never checks the drawn suffix against existing
    ids, so a suffix reproducing an existing id yields a duplicate: adding
    to a list holding id_aaaaaaa with the drawn suffix aaaaaaa stores two
    records with the same id. -/
theorem addInvitado_id_collision :
    (addInvitado [sampleA] ("aaaaaaa") ("Carlos") ("INVITADO") ("")).map (fun i => i.id)
      = [("id_aaaaaaa"), ("id_aaaaaaa")] := by decide

/-- C2 (amended): the record added by addInvitado carries id uid(rand), and
    that id is distinct from every stored id provided the drawn suffix does
    not reproduce one of them, a condition the code never checks. -/
theorem addInvitado_id_fresh (arr : List Invitado) (rand n t d : String)
    (hn : jsTrim n ≠ "") (hf : (uid rand) ∉ arr.map fun i => i.id) :
    addInvitado arr rand n t d
      = arr ++ [{ id := uid rand, nombre_completo := jsTrim n, tipo_invitado := t,
                  qr_code := "", ingresado := false, fecha_ingreso := none, dni := d }]
    ∧ ∀ item ∈ arr, item.id ≠ uid rand := by
  constructor
  · simp [addInvitado, hn]
  · intro item hmem heq
    exact hf (by rw [← heq]; exact List.mem_map_of_mem _ hmem)

/-- Witness for C2 (amended) at a fresh suffix. -/
theorem addInvitado_id_fresh_witness :
    addInvitado [sampleA] ("ccccccc") ("Carlos") ("INVITADO") ("")
      = [sampleA] ++ [{ id := uid ("ccccccc"), nombre_completo := jsTrim ("Carlos"),
                        tipo_invitado := ("INVITADO"), qr_code := "", ingresado := false,
                        fecha_ingreso := none, dni := ("") }]
    ∧ sampleA.id ≠ uid ("ccccccc") :=
  ⟨(addInvitado_id_fresh [sampleA] ("ccccccc") ("Carlos") ("INVITADO") ("")
      (by decide) (by decide)).1,
   (addInvitado_id_fresh [sampleA] ("ccccccc") ("Carlos") ("INVITADO") ("")
      (by decide) (by decide)).2 sampleA (by decide)⟩

/-- Helper: Boolean list prefix test as an existential decomposition. -/
theorem isPrefixOf_iff_exists (l₁ l₂ : List Char) :
    l₁.isPrefixOf l₂ = true ↔ ∃ t, l₁ ++ t = l₂ := by
  induction l₁ generalizing l₂ with
  | nil => simp [List.isPrefixOf]
  | cons a as ih =>
    cases l₂ with
    | nil => simp
    | cons b bs =>
      simp only [List.isPrefixOf_cons₂, Bool.and_eq_true, beq_iff_eq, ih,
        List.cons_append, List.cons.injEq]
      constructor
      · rintro ⟨hab, t, ht⟩
        exact ⟨t, hab, ht⟩
      · rintro ⟨t, hab, ht⟩
        exact ⟨hab, t, ht⟩

/-- Helper: the JS includes model as an existential decomposition. -/
theorem listIncludes_iff (hay needle : List Char) :
    listIncludes hay needle = true ↔ ∃ pre suf, hay = pre ++ needle ++ suf := by
  induction hay with
  | nil =>
    rw [listIncludes]
    constructor
    · intro h
      have hn : needle = [] := by simpa [List.isEmpty_iff] using h
      exact ⟨[], [], by simp [hn]⟩
    · rintro ⟨pre, suf, h⟩
      have h2 := h.symm
      simp only [List.append_assoc, List.append_eq_nil] at h2
      simp [List.isEmpty_iff, h2.2.1]
  | cons c rest ih =>
    rw [listIncludes]
    simp only [Bool.or_eq_true, isPrefixOf_iff_exists, ih]
    constructor
    · rintro (⟨t, ht⟩ | ⟨pre, suf, hps⟩)
      · exact ⟨[], t, by simp [ht]⟩
      · exact ⟨c :: pre, suf, by simp [hps]⟩
    · rintro ⟨pre, suf, hps⟩
      cases pre with
      | nil =>
        left
        exact ⟨suf, by simpa using hps.symm⟩
      | cons p ps =>
        right
        have hcr : c = p ∧ rest = ps ++ needle ++ suf := by
          simpa [List.cons_append, List.cons.injEq] using hps
        exact ⟨ps, suf, hcr.2⟩

/-- Helper: the JS includes model on strings. -/
theorem strIncludes_iff (hay needle : String) :
    strIncludes hay needle = true ↔ ∃ pre suf, hay.data = pre ++ needle.data ++ suf :=
  listIncludes_iff hay.data needle.data

/-- C7: search returns exactly the stored records whose (nonempty) name
    contains the query case-insensitively or whose (nonempty) dni contains
    the query, intersected with the exact dni filter when one is given; in
    particular the query zambrano matches the seed record named
    Jesús Andres Andía Zambrano. search is a pure function of the list. -/
theorem search_characterization
    (invitados : List Invitado) (q dniQ : String) (inv : Invitado) :
    (inv ∈ search invitados q dniQ ↔
      inv ∈ invitados
      ∧ ((inv.nombre_completo ≠ ""
            ∧ ∃ pre suf, (jsToLower inv.nombre_completo).data
                = pre ++ (jsToLower q).data ++ suf)
        ∨ (inv.dni ≠ "" ∧ ∃ pre suf, inv.dni.data = pre ++ q.data ++ suf))
      ∧ (dniQ ≠ "" → inv.dni = dniQ))
    ∧ sampleA ∈ search [sampleA, sampleB] ("zambrano") ("")
    ∧ sampleU ∈ search [sampleU] ("jesús") ("") := by
  refine ⟨?_, ?_, ?_⟩
  · rw [search, List.mem_filter]
    refine and_congr_right fun _ => ?_
    by_cases hd : dniQ = ""
    · subst hd
      simp [strIncludes_iff, bne_iff_ne]
    · simp [strIncludes_iff, bne_iff_ne, hd]
  · decide
  · decide

/-- Witness for C7: the concrete zambrano query of the specification, and an
    accented-capital name matched by its lowercase query. -/
theorem search_characterization_witness :
    sampleA ∈ search [sampleA, sampleB] ("zambrano") ("")
    ∧ sampleU ∈ search [sampleU] ("jesús") ("") :=
  ⟨(search_characterization [sampleA, sampleB] ("zambrano") ("") sampleA).2.1,
   (search_characterization [sampleU] ("jesús") ("") sampleU).2.2⟩

/-- Helper: hexVal inverts hexDigitChar on digit values. -/
theorem hexVal_hexDigitChar (n : Nat) (h : n < 16) :
    hexVal (hexDigitChar n) = some n := by
  have key : ∀ m, m < 16 → hexVal (hexDigitChar m) = some m := by decide
  exact key n h

/-- Helper: the parser step for a closing quote. -/
theorem psb_closeQuote (rest : List Char) :
    parseStringBody ('\"' :: rest) = some ([], rest) := by
  rw [parseStringBody.eq_def]; simp

/-- Helper: the parser step for an escaped quote. -/
theorem psb_esc_quote (t : List Char) :
    parseStringBody ('\\' :: '\"' :: t)
      = (parseStringBody t).map fun p => ('\"' :: p.1, p.2) := by
  rw [parseStringBody.eq_def]; simp

/-- Helper: the parser step for an escaped backslash. -/
theorem psb_esc_back (t : List Char) :
    parseStringBody ('\\' :: '\\' :: t)
      = (parseStringBody t).map fun p => ('\\' :: p.1, p.2) := by
  rw [parseStringBody.eq_def]; simp

/-- Helper: the parser step for an escaped backspace. -/
theorem psb_esc_b (t : List Char) :
    parseStringBody ('\\' :: 'b' :: t)
      = (parseStringBody t).map fun p => ('\x08' :: p.1, p.2) := by
  rw [parseStringBody.eq_def]; simp

/-- Helper: the parser step for an escaped tab. -/
theorem psb_esc_t (t : List Char) :
    parseStringBody ('\\' :: 't' :: t)
      = (parseStringBody t).map fun p => ('\x09' :: p.1, p.2) := by
  rw [parseStringBody.eq_def]; simp

/-- Helper: the parser step for an escaped newline. -/
theorem psb_esc_n (t : List Char) :
    parseStringBody ('\\' :: 'n' :: t)
      = (parseStringBody t).map fun p => ('\x0a' :: p.1, p.2) := by
  rw [parseStringBody.eq_def]; simp

/-- Helper: the parser step for an escaped form feed. -/
theorem psb_esc_f (t : List Char) :
    parseStringBody ('\\' :: 'f' :: t)
      = (parseStringBody t).map fun p => ('\x0c' :: p.1, p.2) := by
  rw [parseStringBody.eq_def]; simp

/-- Helper: the parser step for an escaped carriage return. -/
theorem psb_esc_r (t : List Char) :
    parseStringBody ('\\' :: 'r' :: t)
      = (parseStringBody t).map fun p => ('\x0d' :: p.1, p.2) := by
  rw [parseStringBody.eq_def]; simp

/-- Helper: the parser step for a unicode escape. -/
theorem psb_esc_u (a b c2 d : Char) (t : List Char) (va vb vc vd : Nat)
    (ha : hexVal a = some va) (hb : hexVal b = some vb) (hc : hexVal c2 = some vc)
    (hd : hexVal d = some vd) :
    parseStringBody ('\\' :: 'u' :: a :: b :: c2 :: d :: t)
      = (parseStringBody t).map fun p =>
          (Char.ofNat (((va * 16 + vb) * 16 + vc) * 16 + vd) :: p.1, p.2) := by
  rw [parseStringBody.eq_def]; simp [ha, hb, hc, hd]

/-- Helper: the parser step for an unescaped plain character. -/
theorem psb_plain (c : Char) (t : List Char) (h1 : c ≠ '\"') (h2 : c ≠ '\\')
    (h8 : ¬c.toNat < 32) :
    parseStringBody (c :: t) = (parseStringBody t).map fun p => (c :: p.1, p.2) := by
  rw [parseStringBody.eq_def]; simp [h1, h2, h8]

/-- Helper: whitespace skipping keeps an opening brace. -/
theorem skipWs_openB (rest : List Char) : skipWs ('\x7b' :: rest) = '\x7b' :: rest := by
  rw [skipWs.eq_def]; simp [jsonWs]

/-- Helper: whitespace skipping keeps a quote. -/
theorem skipWs_quote (rest : List Char) : skipWs ('\"' :: rest) = '\"' :: rest := by
  rw [skipWs.eq_def]; simp [jsonWs]

/-- Helper: whitespace skipping keeps a colon. -/
theorem skipWs_colon (rest : List Char) : skipWs (':' :: rest) = ':' :: rest := by
  rw [skipWs.eq_def]; simp [jsonWs]

/-- Helper: whitespace skipping keeps a closing brace. -/
theorem skipWs_closeB (rest : List Char) : skipWs ('\x7d' :: rest) = '\x7d' :: rest := by
  rw [skipWs.eq_def]; simp [jsonWs]

/-- Helper: the string-literal parser consumes one escaped character and
    yields that character. -/
theorem parseStringBody_escapeChar (c : Char) (t : List Char) :
    parseStringBody (jsEscapeChar c ++ t)
      = (parseStringBody t).map fun p => (c :: p.1, p.2) := by
  by_cases h1 : c = '\"'
  · subst h1
    rw [show jsEscapeChar '\"' ++ t = '\\' :: '\"' :: t from rfl]
    exact psb_esc_quote t
  · by_cases h2 : c = '\\'
    · subst h2
      rw [show jsEscapeChar '\\' ++ t = '\\' :: '\\' :: t from rfl]
      exact psb_esc_back t
    · by_cases h3 : c = '\x08'
      · subst h3
        rw [show jsEscapeChar '\x08' ++ t = '\\' :: 'b' :: t from rfl]
        exact psb_esc_b t
      · by_cases h4 : c = '\x09'
        · subst h4
          rw [show jsEscapeChar '\x09' ++ t = '\\' :: 't' :: t from rfl]
          exact psb_esc_t t
        · by_cases h5 : c = '\x0a'
          · subst h5
            rw [show jsEscapeChar '\x0a' ++ t = '\\' :: 'n' :: t from rfl]
            exact psb_esc_n t
          · by_cases h6 : c = '\x0c'
            · subst h6
              rw [show jsEscapeChar '\x0c' ++ t = '\\' :: 'f' :: t from rfl]
              exact psb_esc_f t
            · by_cases h7 : c = '\x0d'
              · subst h7
                rw [show jsEscapeChar '\x0d' ++ t = '\\' :: 'r' :: t from rfl]
                exact psb_esc_r t
              · by_cases h8 : c.toNat < 32
                · have hesc : jsEscapeChar c
                      = ['\\', 'u', '0', '0', hexDigitChar (c.toNat / 16),
                         hexDigitChar (c.toNat % 16)] := by
                    simp only [jsEscapeChar, if_neg h1, if_neg h2, if_neg h3, if_neg h4,
                      if_neg h5, if_neg h6, if_neg h7, if_pos h8]
                  have hv3 : hexVal (hexDigitChar (c.toNat / 16)) = some (c.toNat / 16) :=
                    hexVal_hexDigitChar _ (by omega)
                  have hv4 : hexVal (hexDigitChar (c.toNat % 16)) = some (c.toNat % 16) :=
                    hexVal_hexDigitChar _ (by omega)
                  rw [hesc]
                  simp only [List.cons_append, List.nil_append]
                  rw [psb_esc_u '0' '0' (hexDigitChar (c.toNat / 16))
                    (hexDigitChar (c.toNat % 16)) t 0 0 (c.toNat / 16) (c.toNat % 16)
                    rfl rfl hv3 hv4]
                  have harith : ((0 * 16 + 0) * 16 + c.toNat / 16) * 16 + c.toNat % 16
                      = c.toNat := by omega
                  simp only [harith, Char.ofNat_toNat]
                · have hesc : jsEscapeChar c = [c] := by
                    simp only [jsEscapeChar, if_neg h1, if_neg h2, if_neg h3, if_neg h4,
                      if_neg h5, if_neg h6, if_neg h7, if_neg h8]
                  rw [hesc]
                  simp only [List.cons_append, List.nil_append]
                  exact psb_plain c t h1 h2 h8

/-- Helper: the string-literal parser inverts JSON.stringify escaping. -/
theorem parseStringBody_escape (l rest : List Char) :
    parseStringBody (jsEscapeList l ++ ('\"' :: rest)) = some (l, rest) := by
  induction l with
  | nil =>
    rw [show jsEscapeList [] ++ ('\"' :: rest) = '\"' :: rest from rfl]
    exact psb_closeQuote rest
  | cons c l ih =>
    rw [show jsEscapeList (c :: l) = jsEscapeChar c ++ jsEscapeList l from rfl,
      List.append_assoc, parseStringBody_escapeChar, ih]
    rfl

/-- Helper: parsing the stringified id object, for any sufficient fuel. -/
theorem parseValue_stringify (k : Nat) (l : List Char) :
    parseValue (k + 1 + 1 + 1 + 1)
      ('\x7b' :: '\"' :: 'i' :: 'd' :: '\"' :: ':' :: '\"' ::
        (jsEscapeList l ++ ['\"', '\x7d']))
      = some (Json.obj [(("id"), Json.str (String.mk l))], []) := by
  have hval : parseStringBody (jsEscapeList l ++ ['\"', '\x7d']) = some (l, ['\x7d']) :=
    parseStringBody_escape l ['\x7d']
  have hkey : parseStringBody
      ('i' :: 'd' :: '\"' :: ':' :: '\"' :: (jsEscapeList l ++ ['\"', '\x7d']))
      = some (['i', 'd'], ':' :: '\"' :: (jsEscapeList l ++ ['\"', '\x7d'])) := by
    rw [psb_plain 'i' ('d' :: '\"' :: ':' :: '\"' :: (jsEscapeList l ++ ['\"', '\x7d']))
        (by decide) (by decide) (by decide),
      psb_plain 'd' ('\"' :: ':' :: '\"' :: (jsEscapeList l ++ ['\"', '\x7d']))
        (by decide) (by decide) (by decide),
      psb_closeQuote]
    rfl
  rw [parseValue.eq_def]
  simp only [skipWs_openB]
  simp
  rw [parseObjBody.eq_def]
  simp only [skipWs_quote]
  simp
  rw [parseMembers.eq_def]
  simp only [skipWs_quote]
  simp [hkey]
  simp only [skipWs_colon]
  rw [parseValue.eq_def]
  simp only [skipWs_quote]
  simp [hval]
  simp only [skipWs_closeB]

/-- Helper: JSON.parse inverts the stringified id object for every id. -/
theorem json_parse_stringify (id : String) :
    Json.parse (jsonStringifyIdObj id) = some (Json.obj [(("id"), Json.str id)]) := by
  unfold Json.parse
  have hL : (jsonStringifyIdObj id).length = (jsEscapeList id.data).length + 9 := by
    simp [jsonStringifyIdObj, String.length]
  have hlen : 3 * (jsonStringifyIdObj id).length + 3
      = (3 * (jsEscapeList id.data).length + 26) + 1 + 1 + 1 + 1 := by
    omega
  rw [hlen]
  rw [show (jsonStringifyIdObj id).data
      = '\x7b' :: '\"' :: 'i' :: 'd' :: '\"' :: ':' :: '\"' ::
        (jsEscapeList id.data ++ ['\"', '\x7d']) from rfl]
  rw [parseValue_stringify]
  simp [skipWs]

/-- Helper: a stringified id object is never the empty payload. -/
theorem stringifyIdObj_ne_empty (id : String) : jsonStringifyIdObj id ≠ "" := by
  intro h
  have h2 := congrArg String.data h
  simp [jsonStringifyIdObj] at h2

/-- Helper: a value holding a field is an object, and objects are truthy. -/
theorem jsTruthy_of_getProp (j : Json) (k : String) (v : Json)
    (h : jsGetProp j k = some v) : jsTruthy j = true := by
  cases j with
  | obj fields => rfl
  | null => exact absurd h (by simp [jsGetProp])
  | bool b => exact absurd h (by simp [jsGetProp])
  | num tok => exact absurd h (by simp [jsGetProp])
  | str s => exact absurd h (by simp [jsGetProp])
  | arr elems => exact absurd h (by simp [jsGetProp])

/-- Helper: in a list with pairwise-distinct ids, find? by a member id
    returns that member. -/
theorem find_by_id (invs : List Invitado) (inv2 : Invitado) (t : String)
    (hmem : inv2 ∈ invs) (hid : inv2.id = t)
    (hnd : (invs.map fun i => i.id).Nodup) :
    invs.find? (fun i => jsStrictEqStr i.id (Json.str t)) = some inv2 := by
  induction invs with
  | nil => cases hmem
  | cons x xs ih =>
    simp only [List.map_cons, List.nodup_cons] at hnd
    by_cases hx : x.id = t
    · rw [List.find?_cons_of_pos _ (by simp [jsStrictEqStr, hx])]
      rcases List.mem_cons.mp hmem with rfl | hmem2
      · rfl
      · exact absurd (by rw [hx, ← hid]; exact List.mem_map_of_mem _ hmem2) hnd.1
    · rw [List.find?_cons_of_neg _ (by simp [jsStrictEqStr, hx])]
      rcases List.mem_cons.mp hmem with rfl | hmem2
      · exact absurd hid hx
      · exact ih hmem2 hnd.2

/-- C6: after generarQR, the stored qr_code of the target record always
    parses back to the object holding exactly that id, and scanning that
    payload against any duplicate-free list containing a record with this
    (nonempty) id reports MATCHED with that record. -/
theorem qr_roundtrip (arr : List Invitado) (inv item : Invitado)
    (hmem : item ∈ generarQR arr inv) (hid : item.id = inv.id) :
    Json.parse item.qr_code = some (Json.obj [(("id"), Json.str inv.id)])
    ∧ ∀ (invs : List Invitado) (inv2 : Invitado), inv.id ≠ "" → inv2 ∈ invs →
        inv2.id = inv.id → (invs.map fun i => i.id).Nodup →
        handleScan invs item.qr_code = some (ScanResult.matched inv2) := by
  have hqr : item.qr_code = jsonStringifyIdObj inv.id := by
    simp only [generarQR, List.mem_map] at hmem
    obtain ⟨x, hx, hxe⟩ := hmem
    by_cases hc : x.id = inv.id
    · simp only [hc, beq_self_eq_true, if_true] at hxe
      subst hxe
      rfl
    · simp only [beq_eq_false_iff_ne.mpr hc, Bool.false_eq_true, if_false] at hxe
      subst hxe
      exact absurd hid hc
  constructor
  · rw [hqr]
    exact json_parse_stringify inv.id
  · intro invs inv2 hne hmem2 hid2 hnd
    rw [hqr]
    have hraw : (jsonStringifyIdObj inv.id == "") = false :=
      beq_eq_false_iff_ne.mpr (stringifyIdObj_ne_empty inv.id)
    unfold handleScan
    rw [hraw, json_parse_stringify]
    simp only [Bool.false_eq_true, if_false]
    have htr : jsTruthy (Json.obj [(("id"), Json.str inv.id)]) = true := rfl
    have hget : jsGetProp (Json.obj [(("id"), Json.str inv.id)]) ("id")
        = some (Json.str inv.id) := rfl
    rw [htr, hget]
    simp only [if_true]
    have hpt : jsTruthy (Json.str inv.id) = true := by
      simp [jsTruthy, hne]
    rw [hpt]
    simp only [if_true]
    rw [findInvitado, find_by_id invs inv2 inv.id hmem2 hid2 hnd]

/-- The first seed record after its QR payload has been generated. -/
def sampleAQr : Invitado := { sampleA with qr_code := jsonStringifyIdObj ("id_aaaaaaa") }

/-- Witness for C6 at the first seed record. -/
theorem qr_roundtrip_witness :
    Json.parse sampleAQr.qr_code = some (Json.obj [(("id"), Json.str ("id_aaaaaaa"))])
    ∧ handleScan [sampleAQr] sampleAQr.qr_code
        = some (ScanResult.matched sampleAQr) :=
  ⟨(qr_roundtrip [sampleA] sampleA sampleAQr (by decide) (by decide)).1,
   (qr_roundtrip [sampleA] sampleA sampleAQr (by decide) (by decide)).2 [sampleAQr] sampleAQr
     (by decide) (by decide) (by decide) (by decide)⟩

/-- C3 counterexample: an empty decoded payload is unparseable but is
    silently ignored by the early falsy-payload return, with no INVALID
    report; and a payload whose id field is the (falsy) empty string is
    reported as malformed even when a record with that id is in the list. -/
theorem handleScan_empty_or_falsy_id :
    handleScan [] ("") = none
    ∧ handleScan [{ sampleA with id := "" }] ("\x7b\"id\":\"\"\x7d")
        = some (ScanResult.invalid ("QR inválido")) :=
  ⟨rfl, rfl⟩

/-- C3 (amended): for every nonempty decoded payload, handleScan reports
    malformed when the payload does not parse, when the parsed value is
    falsy or lacks an id field, or when the id field holds a falsy value;
    it reports not-registered when the (truthy) id matches no stored record
    under strict equality; and it reports MATCHED with the first stored
    record whose id strictly equals the scanned id. -/
theorem handleScan_cases (invitados : List Invitado) (raw : String) (hne : raw ≠ "") :
    (Json.parse raw = none →
      handleScan invitados raw = some (ScanResult.invalid ("QR inválido")))
    ∧ (∀ j, Json.parse raw = some j → jsTruthy j = false →
      handleScan invitados raw = some (ScanResult.invalid ("QR inválido")))
    ∧ (∀ j, Json.parse raw = some j → jsGetProp j ("id") = none →
      handleScan invitados raw = some (ScanResult.invalid ("QR inválido")))
    ∧ (∀ j v, Json.parse raw = some j → jsGetProp j ("id") = some v →
      jsTruthy v = false →
      handleScan invitados raw = some (ScanResult.invalid ("QR inválido")))
    ∧ (∀ j v, Json.parse raw = some j → jsGetProp j ("id") = some v →
      jsTruthy v = true → invitados.find? (fun i => jsStrictEqStr i.id v) = none →
      handleScan invitados raw = some (ScanResult.invalid ("Invitado no registrado")))
    ∧ (∀ j v inv, Json.parse raw = some j → jsGetProp j ("id") = some v →
      jsTruthy v = true → invitados.find? (fun i => jsStrictEqStr i.id v) = some inv →
      handleScan invitados raw = some (ScanResult.matched inv)) := by
  have hraw : (raw == "") = false := beq_eq_false_iff_ne.mpr hne
  refine ⟨?_, ?_, ?_, ?_, ?_, ?_⟩
  · intro hp
    simp [handleScan, hraw, hp]
  · intro j hp ht
    simp [handleScan, hraw, hp, ht]
  · intro j hp hg
    by_cases htj : jsTruthy j
    · simp [handleScan, hraw, hp, hg, htj]
    · simp [handleScan, hraw, hp, hg, htj]
  · intro j v hp hg htv
    have htj : jsTruthy j = true := jsTruthy_of_getProp j ("id") v hg
    simp [handleScan, hraw, hp, hg, htj, htv]
  · intro j v hp hg htv hfind
    have htj : jsTruthy j = true := jsTruthy_of_getProp j ("id") v hg
    simp [handleScan, hraw, hp, hg, htj, htv, findInvitado, hfind]
  · intro j v inv hp hg htv hfind
    have htj : jsTruthy j = true := jsTruthy_of_getProp j ("id") v hg
    simp [handleScan, hraw, hp, hg, htj, htv, findInvitado, hfind]

/-- Witness for C3 (amended): a generated-style payload scanned against the
    seed list reporting MATCHED. -/
theorem handleScan_cases_witness :
    handleScan [sampleA] ("\x7b\"id\":\"id_aaaaaaa\"\x7d")
      = some (ScanResult.matched sampleA) :=
  (handleScan_cases [sampleA] ("\x7b\"id\":\"id_aaaaaaa\"\x7d")
      (by decide)).2.2.2.2.2
    (Json.obj [(("id"), Json.str ("id_aaaaaaa"))]) (Json.str ("id_aaaaaaa")) sampleA
    (by rfl) (by rfl) (by rfl) (by rfl)

end Invitados
